import Mathlib

/-!
Verification of the retrieval-augmented answer pipeline of this repository.

The JavaScript sources are embedded shallowly:
* JS strings are `List Char`; `str` converts a Lean string literal.
* JS truthiness on strings (`x || y`) is `jsOr`; `??` on numbers is `Option.or`.
* `String.prototype.replace` with a global literal-text regex is `replaceAll`
  (a fuel-indexed left-to-right non-overlapping scan, fuel = input length).
* The handlers in `src/api/chat.js` and the retrieval fallback loop
  `gxSearch` in `src/api/debug.js` become pure functions over explicit
  request / environment / upstream-response records, instrumented with
  flags recording which outbound calls were made.
-/

namespace Chesm

/-- Characters of a Lean string literal, the model of a JS string. -/
def str (s : String) : List Char := s.data

/-- Boolean test: does `p` start the list `s`? (model of a regex match at one position). -/
def pfx : List Char → List Char → Bool
  | [], _ => true
  | _ :: _, [] => false
  | a :: as, b :: bs => if a = b then pfx as bs else false

/-- Boolean substring test (model of `RegExp.test` with literal text / `String.includes`). -/
def containsSub (p : List Char) : List Char → Bool
  | [] => pfx p []
  | c :: rest => pfx p (c :: rest) || containsSub p rest

/-- Decimal digit characters of a natural number, with fuel (fuel `n+1` always suffices). -/
def natCharsAux : Nat → Nat → List Char
  | 0, _ => []
  | fuel + 1, n =>
    if n < 10 then [Nat.digitChar n]
    else natCharsAux fuel (n / 10) ++ [Nat.digitChar (n % 10)]

/-- Decimal representation of a natural number, as JS renders a number into a template. -/
def natChars (n : Nat) : List Char := natCharsAux (n + 1) n

/-- Decimal representation of an integer. -/
def intChars (i : Int) : List Char :=
  if i < 0 then '-' :: natChars i.natAbs else natChars i.toNat

/-- Value of a list of decimal digit characters (used to invert `natChars`). -/
def charsVal (cs : List Char) : Nat :=
  cs.foldl (fun a c => 10 * a + (c.toNat - 48)) 0

/-- The literal citation marker `[n]`, the text matched by `new RegExp("\\[" + n + "\\]")`. -/
def marker (n : Nat) : List Char := '[' :: (natChars n ++ [']'])

/-- One pass of JS `text.replace(regex, rep)` with a global literal pattern:
left-to-right scan, each match consumed, fuel bounds the scan length. -/
def replAux (pat rep : List Char) : Nat → List Char → List Char
  | _, [] => []
  | 0, s => s
  | fuel + 1, c :: rest =>
    if pfx pat (c :: rest) then
      rep ++ replAux pat rep fuel (List.drop pat.length (c :: rest))
    else
      c :: replAux pat rep fuel rest

/-- JS `text.replace(new RegExp(pat-literal, "g"), rep)` for a non-empty literal pattern. -/
def replaceAll (pat rep s : List Char) : List Char := replAux pat rep s.length s

/-- JS string truthiness for `a || b` where `a` is an optional string:
`undefined`, `null` and `""` fall through to `b`. -/
def jsOr (a : Option (List Char)) (b : List Char) : List Char :=
  match a with
  | some s => if s = [] then b else s
  | none => b

/-- JS number truthiness for `x || null`: `0` and absent become `null`. -/
def jsNumOrNull (a : Option Int) : Option Int :=
  match a with
  | some v => if v = 0 then none else some v
  | none => none

/-- JS `String.prototype.trim`: strip leading and trailing whitespace. -/
def jsTrim (s : List Char) : List Char :=
  ((s.dropWhile Char.isWhitespace).reverse.dropWhile Char.isWhitespace).reverse

/-- Lower-case every character (model of a case-insensitive regex test). -/
def lc (s : List Char) : List Char := s.map Char.toLower

/-- One retrieved result `r` of the GroundX search response, with the fields
`src/api/chat.js` reads (`searchData?.title`, `searchData?.pageNumber`,
`searchData?.page` are flattened to one field each). -/
structure Passage where
  suggestedText : Option (List Char)
  text : Option (List Char)
  searchDataTitle : Option (List Char)
  fileName : Option (List Char)
  sourceUrl : Option (List Char)
  multimodalUrl : Option (List Char)
  pageNumber : Option Int
  page : Option Int
  score : Option Int
deriving DecidableEq

/-- One entry of the `sources` array built in `src/api/chat.js` lines 79-93. -/
structure Source where
  number : Nat
  title : List Char
  url : List Char
  page : Option Int
  chunk_text : List Char
  confidence : Option Int
deriving DecidableEq

/-- `chunkText.length > 150 ? chunkText.substring(0, 150) + "..." : chunkText`
(src/api/chat.js lines 81-83). -/
def chunkPreview (chunkText : List Char) : List Char :=
  if 150 < chunkText.length then chunkText.take 150 ++ str "..." else chunkText

/-- The source built from result `r` at 0-based index `i` (src/api/chat.js lines 79-93). -/
def mkSource (i : Nat) (r : Passage) : Source :=
  { number := i + 1
    title := jsOr r.searchDataTitle (jsOr r.fileName (str "Source " ++ natChars (i + 1)))
    url := jsOr r.sourceUrl (jsOr r.multimodalUrl [])
    page := Option.or r.pageNumber r.page
    chunk_text := chunkPreview (jsOr r.suggestedText (jsOr r.text []))
    confidence := jsNumOrNull r.score }

/-- `results.slice(0, 10).map((r, i) => ...)` unrolled with an explicit index. -/
def mkSourcesFrom (i : Nat) : List Passage → List Source
  | [] => []
  | r :: rest => mkSource i r :: mkSourcesFrom (i + 1) rest

/-- The `sources` array of src/api/chat.js line 79: at most ten numbered sources. -/
def mkSources (results : List Passage) : List Source :=
  mkSourcesFrom 0 (results.take 10)

/-- `source.page ? \x60 (p. ${source.page})\x60 : ''` (JS number truthiness: 0 is falsy). -/
def pageInfo (s : Source) : List Char :=
  match s.page with
  | some p => if p = 0 then [] else str " (p. " ++ intChars p ++ str ")"
  | none => []

/-- The tooltip text of src/api/chat.js line 144. -/
def tooltipContent (s : Source) : List Char :=
  s.title ++ pageInfo s ++
    (if s.chunk_text = [] then [] else str "\n\nExcerpt: \"" ++ s.chunk_text ++ str "\"")

/-- `tooltipContent.replace(/"/g, '&quot;')`. -/
def escQuotes (s : List Char) : List Char := replaceAll (str "\"") (str "&quot;") s

/-- The clickable anchor of src/api/chat.js lines 147-149, byte-for-byte
(the template literal spans three lines and keeps a trailing space before
each newline and ten spaces of indentation after it). -/
def clickableLink (s : Source) : List Char :=
  str "<a href=\"" ++ s.url ++ str "\" target=\"_blank\" \n          title=\"" ++
    escQuotes (tooltipContent s) ++
    str "\" \n          style=\"color: #0066cc; text-decoration: underline; font-weight: 500;\">[" ++
    natChars s.number ++ str "]</a>"

/-- The markdown replacement `[\[n\]](url)` of src/api/chat.js line 166. -/
def markdownLink (s : Source) : List Char :=
  str "[\\[" ++ natChars s.number ++ str "\\]](" ++ s.url ++ str ")"

/-- `createClickableCitations` (src/api/chat.js lines 136-155): for each source in
order, globally replace its literal marker `[n]` by the anchor element. -/
def createClickableCitations (text : List Char) (sourcesArray : List Source) : List Char :=
  sourcesArray.foldl (fun htmlText s => replaceAll (marker s.number) (clickableLink s) htmlText) text

/-- `createMarkdownCitations` (src/api/chat.js lines 158-172). -/
def createMarkdownCitations (text : List Char) (sourcesArray : List Source) : List Char :=
  sourcesArray.foldl
    (fun markdownText s => replaceAll (marker s.number) (markdownLink s) markdownText) text

/-- A definition that follows the spec's words for claim C8 only, to be compared
with the code: title chain "explicit title, then filename, then synthesized
Source N" (the amended chain, with JS truthiness deciding availability). -/
def specTitleFallback (r : Passage) (n : Nat) : List Char :=
  match r.fileName with
  | some f => if f = [] then str "Source " ++ natChars n else f
  | none => str "Source " ++ natChars n

/-- Spec-worded title derivation for one passage numbered `n` (see C8). -/
def specTitleChain (r : Passage) (n : Nat) : List Char :=
  match r.searchDataTitle with
  | some t => if t = [] then specTitleFallback r n else t
  | none => specTitleFallback r n

/-- Spec-worded titles of the first ten passages, numbered from `i + 1`. -/
def specTitlesFrom (i : Nat) : List Passage → List (List Char)
  | [] => []
  | r :: rest => specTitleChain r (i + 1) :: specTitlesFrom (i + 1) rest

/-- An HTTP response as the handlers observe it: `ok` flag and raw body text
(`r.json()` and `r.text()` both deliver the body). -/
structure HttpResp where
  ok : Bool
  body : List Char
deriving DecidableEq

/-- One retrieval attempt of the matrix in `gxSearch` (src/api/debug.js lines 46-67):
an endpoint URL plus its header list. -/
structure Attempt where
  url : List Char
  headers : List (List Char × List Char)
deriving DecidableEq

/-- The five-attempt matrix of src/api/debug.js lines 46-67, for API key `key`. -/
def gxTries (key : List Char) : List Attempt :=
  [ ⟨str "https://api.groundx.ai/api/v1/search",
      [(str "Content-Type", str "application/json"), (str "Authorization", str "Bearer " ++ key)]⟩,
    ⟨str "https://api.groundx.ai/api/v1/search",
      [(str "Content-Type", str "application/json"), (str "x-api-key", key)]⟩,
    ⟨str "https://api.eyelevel.ai/api/v1/search",
      [(str "Content-Type", str "application/json"), (str "Authorization", str "Bearer " ++ key)]⟩,
    ⟨str "https://api.eyelevel.ai/api/v1/search",
      [(str "Content-Type", str "application/json"), (str "x-api-key", key)]⟩,
    ⟨str "https://api.groundx.ai/api/v1/search",
      [(str "Content-Type", str "application/json"), (str "Authorization", str "Token " ++ key)]⟩ ]

/-- `/api key|unauthorized|authorization/i.test(lastText)` (src/api/debug.js line 74). -/
def authSig (bodyText : List Char) : Bool :=
  containsSub (str "api key") (lc bodyText) ||
    containsSub (str "unauthorized") (lc bodyText) ||
    containsSub (str "authorization") (lc bodyText)

/-- Outcome of the retrieval fallback loop. -/
inductive GxOutcome where
  | success (body : List Char)
  | hardFailure (msg : List Char)
  | authExhausted (msg : List Char)
deriving DecidableEq

/-- The `for (const t of tries)` loop of src/api/debug.js lines 69-78, instrumented
with the list of attempts actually executed. `respond` is the network oracle. -/
def gxLoop (respond : Attempt → HttpResp) : List Attempt → List Char → GxOutcome × List Attempt
  | [], lastText =>
    (.authExhausted (str "GroundX auth failed after retries: " ++ lastText), [])
  | t :: rest, _ =>
    let r := respond t
    if r.ok then (.success r.body, [t])
    else if authSig r.body then
      let p := gxLoop respond rest r.body
      (p.1, t :: p.2)
    else (.hardFailure (str "GroundX search failed: " ++ r.body), [t])

/-- `gxSearch` of src/api/debug.js: run the whole matrix, `lastText` initially empty. -/
def gxSearch (respond : Attempt → HttpResp) (key : List Char) : GxOutcome × List Attempt :=
  gxLoop respond (gxTries key) (str "")

/-- A JSON value as far as the `query` field is concerned. -/
inductive JVal where
  | jstr (s : List Char)
  | jnum (n : Int)
  | jbool (b : Bool)
  | jnull
deriving DecidableEq

/-- JS truthiness of a JSON value. -/
def truthyJ : JVal → Bool
  | .jstr s => s ≠ []
  | .jnum n => n ≠ 0
  | .jbool b => b
  | .jnull => false

/-- `body.query || ""`: a falsy query value falls through to the empty string. -/
def queryOrEmpty (q : Option JVal) : JVal :=
  match q with
  | none => .jstr []
  | some v => if truthyJ v then v else .jstr []

/-- `x.trim()`: only strings have `trim`; on any other value the call throws a
`TypeError`, which the top-level catch of the handler turns into a 500. -/
def trimJs : JVal → Except (List Char) (List Char)
  | .jstr s => .ok (jsTrim s)
  | _ => .error (str "query.trim is not a function")

/-- Truthiness of an optional env string (`if (!GX_KEY)` ...). -/
def truthyS (o : Option (List Char)) : Bool :=
  match o with
  | some s => s ≠ []
  | none => false

/-- The request, with its body already JSON-decoded: `none` models an invalid
JSON body, `some q` a parsed object whose `query` field is `q`. -/
structure ChatReq where
  method : List Char
  body : Option (Option JVal)
deriving DecidableEq

/-- The environment variables the handler reads. -/
structure Env where
  gxKey : Option (List Char)
  gxBucket : Option (List Char)
  oaKey : Option (List Char)
  oaModel : Option (List Char)
deriving DecidableEq

/-- The parsed `search` envelope of the GroundX response body. -/
structure GxSearchObj where
  results : Option (List Passage)
  text : Option (List Char)
deriving DecidableEq

/-- The two upstream calls' behavior for this request: the GroundX HTTP response
and its parsed envelope, the OpenAI HTTP response and its extracted
`choices[0].message.content`. -/
structure Upstream where
  gx : HttpResp
  gxSearch : Option GxSearchObj
  oa : HttpResp
  oaContent : Option (List Char)
deriving DecidableEq

/-- `gxData?.search?.results || []` (an array, even empty, is truthy in JS). -/
def gxResults (up : Upstream) : List Passage :=
  (up.gxSearch.bind GxSearchObj.results).getD []

/-- `gxData?.search?.text || ""`. -/
def gxText (up : Upstream) : List Char :=
  jsOr (up.gxSearch.bind GxSearchObj.text) []

/-- The canned empty-evidence answer of src/api/chat.js line 71. -/
def apology (query : List Char) : List Char :=
  str "I couldn't find relevant passages for \"" ++ query ++ str "\"."

/-- One line of the markdown sources block (src/api/chat.js lines 180-184). -/
def sourceLineMd (s : Source) : List Char :=
  str "[" ++ natChars s.number ++ str "]: " ++ s.url ++ str " \"" ++ s.title ++ str "\"" ++
    pageInfo s ++ (if s.chunk_text = [] then [] else str "\n   Excerpt: \"" ++ s.chunk_text ++ str "\"")

/-- The markdown sources block. -/
def sourcesMd (srcs : List Source) : List Char :=
  (List.intercalate (str "\n") (srcs.map sourceLineMd))

/-- One line of the HTML sources block (src/api/chat.js lines 187-191). -/
def sourceLineHtml (s : Source) : List Char :=
  str "<strong>[" ++ natChars s.number ++ str "]:</strong> <a href=\"" ++ s.url ++
    str "\" target=\"_blank\">" ++ s.title ++ str "</a>" ++ pageInfo s ++
    (if s.chunk_text = [] then [] else str "<br><em>Excerpt: \"" ++ s.chunk_text ++ str "\"</em>")

/-- The HTML sources block. -/
def sourcesHtml (srcs : List Source) : List Char :=
  (List.intercalate (str "<br><br>") (srcs.map sourceLineHtml))

/-- One line of the markdown-links sources block (src/api/chat.js lines 194-198). -/
def sourceLineLinks (s : Source) : List Char :=
  str "**[" ++ natChars s.number ++ str "]:** [" ++ s.title ++ str "](" ++ s.url ++ str ")" ++
    pageInfo s ++ (if s.chunk_text = [] then [] else str "\n   Excerpt: \"" ++ s.chunk_text ++ str "\"")

/-- The markdown-links sources block. -/
def sourcesLinks (srcs : List Source) : List Char :=
  (List.intercalate (str "\n\n") (srcs.map sourceLineLinks))

/-- The `answer_md` field of the success response (src/api/chat.js line 202). -/
def assembleMd (answer : List Char) (srcs : List Source) : List Char :=
  answer ++ str "\n\n---\n**Sources**\n" ++ sourcesMd srcs

/-- The `answer_html` field of the success response (src/api/chat.js line 203). -/
def assembleHtml (answer : List Char) (srcs : List Source) : List Char :=
  createClickableCitations answer srcs ++
    str "<br><br><hr><strong>Sources</strong><br><br>" ++ sourcesHtml srcs

/-- The `answer_markdown_links` field of the success response (src/api/chat.js line 204). -/
def assembleLinks (answer : List Char) (srcs : List Source) : List Char :=
  createMarkdownCitations answer srcs ++ str "\n\n---\n**Sources**\n" ++ sourcesLinks srcs

/-- The JSON body the handler responds with. -/
inductive RespBody where
  | empty
  | error (msg : List Char)
  | noEvidence (answer_md answer_html : List Char) (sources : List Source)
  | success (answer_md answer_html answer_markdown_links : List Char) (sources : List Source)
deriving DecidableEq

/-- The handler's observable outcome: HTTP status, body, and whether the
retrieval / generation backends were called. -/
structure HandlerOut where
  status : Nat
  body : RespBody
  calledGx : Bool
  calledOa : Bool
deriving DecidableEq

/-- The request handler of src/api/chat.js, as a pure function of the request,
the environment and the two upstream responses. -/
def handler (req : ChatReq) (env : Env) (up : Upstream) : HandlerOut :=
  if req.method = str "OPTIONS" then ⟨200, .empty, false, false⟩
  else if req.method = str "POST" then
    match req.body with
    | none => ⟨400, .error (str "Invalid JSON body"), false, false⟩
    | some qv =>
      match trimJs (queryOrEmpty qv) with
      | .error m => ⟨500, .error m, false, false⟩
      | .ok query =>
        if query = [] then ⟨400, .error (str "Missing 'query' string"), false, false⟩
        else if truthyS env.gxKey = false then
          ⟨500, .error (str "Missing GROUNDX_API_KEY"), false, false⟩
        else if truthyS env.gxBucket = false then
          ⟨500, .error (str "Missing GROUNDX_BUCKET_ID"), false, false⟩
        else if truthyS env.oaKey = false then
          ⟨500, .error (str "Missing OPENAI_API_KEY"), false, false⟩
        else if up.gx.ok = false then
          ⟨502, .error (str "GroundX search failed: " ++ up.gx.body), true, false⟩
        else if gxText up = [] ∧ gxResults up = [] then
          ⟨200, .noEvidence (apology query) (apology query) [], true, false⟩
        else
          let sources := mkSources (gxResults up)
          if up.oa.ok = false then
            ⟨502, .error (str "OpenAI call failed: " ++ up.oa.body), true, true⟩
          else
            let answer := jsOr (up.oaContent.map jsTrim) (str "No answer.")
            ⟨200,
              .success (assembleMd answer sources) (assembleHtml answer sources)
                (assembleLinks answer sources) sources,
              true, true⟩
  else ⟨405, .error (str "Method not allowed"), false, false⟩


/-- Sample source used by concrete witnesses and counterexamples. -/
def sampleSource : Source :=
  { number := 1, title := str "T", url := str "u", page := none, chunk_text := [],
    confidence := none }

/-- Sample passage with a short text, used by concrete witnesses. -/
def samplePassage : Passage :=
  { suggestedText := some (str "short text"), text := none, searchDataTitle := none,
    fileName := none, sourceUrl := none, multimodalUrl := none, pageNumber := none,
    page := none, score := none }

/-- Sample passage whose text has 151 characters, used by the C7 counterexample. -/
def longPassage : Passage :=
  { suggestedText := some (List.replicate 151 'a'), text := none, searchDataTitle := none,
    fileName := none, sourceUrl := none, multimodalUrl := none, pageNumber := none,
    page := none, score := none }

/-- Passage with neither explicit title nor filename but with a source URL, used
by the C8 counterexample. -/
def urlOnlyPassage : Passage :=
  { suggestedText := none, text := none, searchDataTitle := none, fileName := none,
    sourceUrl := some (str "https://ex.com/docs/doc.pdf"), multimodalUrl := none,
    pageNumber := none, page := none, score := none }

/-- Concrete API key for the C4 witness scenario. -/
def cKey : List Char := str "k"

/-- The five attempts of the matrix for `cKey`, named individually. -/
def gxAttempt1 : Attempt :=
  ⟨str "https://api.groundx.ai/api/v1/search",
    [(str "Content-Type", str "application/json"), (str "Authorization", str "Bearer " ++ cKey)]⟩

def gxAttempt2 : Attempt :=
  ⟨str "https://api.groundx.ai/api/v1/search",
    [(str "Content-Type", str "application/json"), (str "x-api-key", cKey)]⟩

def gxAttempt3 : Attempt :=
  ⟨str "https://api.eyelevel.ai/api/v1/search",
    [(str "Content-Type", str "application/json"), (str "Authorization", str "Bearer " ++ cKey)]⟩

def gxAttempt4 : Attempt :=
  ⟨str "https://api.eyelevel.ai/api/v1/search",
    [(str "Content-Type", str "application/json"), (str "x-api-key", cKey)]⟩

def gxAttempt5 : Attempt :=
  ⟨str "https://api.groundx.ai/api/v1/search",
    [(str "Content-Type", str "application/json"), (str "Authorization", str "Token " ++ cKey)]⟩

/-- Network oracle for the C4 witness: the first attempt fails with an auth
error, every other attempt succeeds. -/
def cRespond : Attempt → HttpResp := fun a =>
  if a = gxAttempt1 then ⟨false, str "401 Unauthorized"⟩ else ⟨true, str "ok-result"⟩

/-- Concrete environment used by the handler witnesses. -/
def cEnv : Env := ⟨some (str "gxkey"), some (str "bucket"), some (str "oakey"), none⟩

/-- Upstream behavior: GroundX succeeds with no results and no context text. -/
def cUpEmpty : Upstream := ⟨⟨true, []⟩, some ⟨some [], some []⟩, ⟨true, []⟩, none⟩

/-- Upstream behavior: GroundX supplies context text, OpenAI fails. -/
def cUpCtxFail : Upstream := ⟨⟨true, []⟩, some ⟨some [], some (str "ctx")⟩, ⟨false, str "boom"⟩, none⟩

/-- Upstream behavior: GroundX supplies context text, OpenAI succeeds with no content. -/
def cUpCtxOk : Upstream := ⟨⟨true, []⟩, some ⟨some [], some (str "ctx")⟩, ⟨true, str "resp"⟩, none⟩

end Chesm

namespace Chesm

theorem pfx_nil (s : List Char) : pfx [] s = true := rfl

theorem pfx_iff (p : List Char) : ∀ s : List Char, pfx p s = true ↔ ∃ t, s = p ++ t := by
  induction p with
  | nil =>
    intro s
    simp [pfx_nil]
  | cons a as ih =>
    intro s
    cases s with
    | nil =>
      simp [pfx]
    | cons b bs =>
      constructor
      · intro h
        rw [pfx] at h
        by_cases hab : a = b
        · rw [if_pos hab] at h
          obtain ⟨t, ht⟩ := (ih bs).1 h
          exact ⟨t, by simp [← hab, ht]⟩
        · rw [if_neg hab] at h
          exact absurd h (by simp)
      · rintro ⟨t, ht⟩
        rw [List.cons_append] at ht
        obtain ⟨hb, hbs⟩ := List.cons.inj ht
        rw [pfx, if_pos hb.symm]
        exact (ih bs).2 ⟨t, hbs⟩

theorem pfx_self_append (p t : List Char) : pfx p (p ++ t) = true :=
  (pfx_iff p (p ++ t)).2 ⟨t, rfl⟩

theorem pfx_length {p s : List Char} (h : pfx p s = true) : p.length ≤ s.length := by
  obtain ⟨t, ht⟩ := (pfx_iff p s).1 h
  simp [ht]

theorem pfx_cons_ne_nil {c : Char} {p s : List Char} (h : pfx (c :: p) s = true) : s ≠ [] := by
  intro hs
  rw [hs] at h
  simp [pfx] at h

theorem append_eq_append_of_length_le {p t₁ : List Char} :
    ∀ q t₂ : List Char, p ++ t₁ = q ++ t₂ → p.length ≤ q.length → ∃ u, q = p ++ u := by
  induction p with
  | nil => intro q t₂ _ _; exact ⟨q, rfl⟩
  | cons a as ih =>
    intro q t₂ heq hlen
    cases q with
    | nil => simp at hlen
    | cons b bs =>
      rw [List.cons_append, List.cons_append] at heq
      obtain ⟨hb, hrest⟩ := List.cons.inj heq
      obtain ⟨u, hu⟩ := ih bs t₂ hrest (by simpa using hlen)
      exact ⟨u, by rw [hu, hb, List.cons_append]⟩

theorem pfx_of_pfx_of_length_le {p q s : List Char} (hp : pfx p s = true)
    (hq : pfx q s = true) (hlen : p.length ≤ q.length) : pfx p q = true := by
  obtain ⟨t₁, ht₁⟩ := (pfx_iff p s).1 hp
  obtain ⟨t₂, ht₂⟩ := (pfx_iff q s).1 hq
  obtain ⟨u, hu⟩ := append_eq_append_of_length_le q t₂ (ht₁ ▸ ht₂) hlen
  exact hu ▸ pfx_self_append p u

theorem containsSub_iff (p : List Char) :
    ∀ s : List Char, containsSub p s = true ↔ ∃ i, pfx p (List.drop i s) = true := by
  intro s
  induction s with
  | nil =>
    constructor
    · intro h; exact ⟨0, by simpa [containsSub] using h⟩
    · rintro ⟨i, hi⟩
      simpa [containsSub] using (by simpa using hi : pfx p [] = true)
  | cons c rest ih =>
    constructor
    · intro h
      rw [containsSub, Bool.or_eq_true] at h
      rcases h with h | h
      · exact ⟨0, by simpa using h⟩
      · obtain ⟨i, hi⟩ := ih.1 h
        exact ⟨i + 1, by simpa using hi⟩
    · rintro ⟨i, hi⟩
      rw [containsSub, Bool.or_eq_true]
      cases i with
      | zero => exact Or.inl (by simpa using hi)
      | succ j => exact Or.inr (ih.2 ⟨j, by simpa using hi⟩)

theorem charsVal_append_digit (xs : List Char) (c : Char) :
    charsVal (xs ++ [c]) = 10 * charsVal xs + (c.toNat - 48) := by
  simp [charsVal, List.foldl_append]

theorem digitChar_bounds : ∀ d, d < 10 → 48 ≤ (Nat.digitChar d).toNat ∧ (Nat.digitChar d).toNat ≤ 57 := by
  decide

theorem digitChar_val : ∀ d, d < 10 → (Nat.digitChar d).toNat = 48 + d := by
  decide

theorem natCharsAux_mem :
    ∀ fuel n c, c ∈ natCharsAux fuel n → 48 ≤ c.toNat ∧ c.toNat ≤ 57 := by
  intro fuel
  induction fuel with
  | zero => intro n c hc; simp [natCharsAux] at hc
  | succ f ih =>
    intro n c hc
    rw [natCharsAux] at hc
    by_cases h : n < 10
    · rw [if_pos h] at hc
      simp at hc
      exact hc ▸ digitChar_bounds n h
    · rw [if_neg h] at hc
      rcases List.mem_append.1 hc with h1 | h2
      · exact ih (n / 10) c h1
      · simp at h2
        exact h2 ▸ digitChar_bounds (n % 10) (Nat.mod_lt n (by omega))

theorem natCharsAux_val :
    ∀ fuel n, n < fuel → charsVal (natCharsAux fuel n) = n ∧ natCharsAux fuel n ≠ [] := by
  intro fuel
  induction fuel with
  | zero => intro n hn; omega
  | succ f ih =>
    intro n hn
    rw [natCharsAux]
    by_cases h : n < 10
    · rw [if_pos h]
      refine ⟨?_, by simp⟩
      have hv := digitChar_val n h
      simp [charsVal, hv]
    · rw [if_neg h]
      have hdiv : n / 10 < n := Nat.div_lt_self (by omega) (by omega)
      obtain ⟨hval, _⟩ := ih (n / 10) (by omega)
      refine ⟨?_, by simp⟩
      rw [charsVal_append_digit, hval, digitChar_val (n % 10) (Nat.mod_lt n (by omega))]
      omega

theorem natChars_val (n : Nat) : charsVal (natChars n) = n :=
  (natCharsAux_val (n + 1) n (by omega)).1

theorem natChars_ne_nil (n : Nat) : natChars n ≠ [] :=
  (natCharsAux_val (n + 1) n (by omega)).2

theorem natChars_inj {a b : Nat} (h : natChars a = natChars b) : a = b := by
  have := natChars_val a
  rw [h, natChars_val b] at this
  omega

theorem natChars_mem {n : Nat} {c : Char} (hc : c ∈ natChars n) :
    48 ≤ c.toNat ∧ c.toNat ≤ 57 :=
  natCharsAux_mem (n + 1) n c hc

theorem marker_inner_ne_lbrack {n : Nat} {c : Char} (hc : c ∈ natChars n ++ [']']) :
    c ≠ '[' := by
  intro heq
  rcases List.mem_append.1 hc with h1 | h2
  · have := natChars_mem h1
    rw [heq] at this
    have h91 : ('[' : Char).toNat = 91 := by decide
    omega
  · simp at h2
    rw [heq] at h2
    exact absurd h2 (by decide)

theorem marker_eq_cons (n : Nat) : marker n = '[' :: (natChars n ++ [']']) := rfl

theorem marker_length (n : Nat) : (marker n).length = (natChars n).length + 2 := by
  simp [marker]

theorem drop_append_of_le (B : List Char) :
    ∀ (A : List Char) (j : Nat), j ≤ A.length → List.drop j (A ++ B) = A.drop j ++ B := by
  intro A
  induction A with
  | nil =>
    intro j hj
    have hj0 : j = 0 := by simpa using hj
    subst hj0
    simp
  | cons a A' ih =>
    intro j hj
    cases j with
    | zero => simp
    | succ j' =>
      rw [List.cons_append, List.drop_succ_cons, List.drop_succ_cons]
      exact ih j' (by simpa using hj)

theorem drop_append_right (B : List Char) :
    ∀ (A : List Char) (i : Nat), List.drop (A.length + i) (A ++ B) = List.drop i B := by
  intro A
  induction A with
  | nil => intro i; simp
  | cons a A' ih =>
    intro i
    rw [List.cons_append, List.length_cons]
    rw [show A'.length + 1 + i = (A'.length + i) + 1 by omega, List.drop_succ_cons]
    exact ih i

theorem digits_tail_inj :
    ∀ da db : List Char, (∀ c ∈ da, c ≠ ']') → (∀ c ∈ db, c ≠ ']') →
      pfx (da ++ [']']) (db ++ [']']) = true → da = db := by
  intro da
  induction da with
  | nil =>
    intro db hda hdb h
    cases db with
    | nil => rfl
    | cons d db' =>
      rw [List.nil_append, List.cons_append, pfx] at h
      split at h
      · rename_i hd
        exact absurd hd.symm (hdb d (by simp))
      · exact absurd h (by simp)
  | cons x da' ih =>
    intro db hda hdb h
    cases db with
    | nil =>
      rw [List.cons_append, List.nil_append, pfx] at h
      split at h
      · rename_i hd
        · exact absurd hd (hda x (by simp))
      · exact absurd h (by simp)
    | cons d db' =>
      rw [List.cons_append, List.cons_append, pfx] at h
      split at h
      · rename_i hd
        have := ih db' (fun c hc => hda c (by simp [hc])) (fun c hc => hdb c (by simp [hc])) h
        rw [this, hd]
      · exact absurd h (by simp)

theorem marker_pfx_marker {a b : Nat} (h : pfx (marker a) (marker b) = true) : a = b := by
  rw [marker_eq_cons, marker_eq_cons, pfx] at h
  rw [if_pos rfl] at h
  have := digits_tail_inj (natChars a) (natChars b)
    (fun c hc => by
      have := natChars_mem hc
      intro hcc
      rw [hcc] at this
      exact absurd this (by decide))
    (fun c hc => by
      have := natChars_mem hc
      intro hcc
      rw [hcc] at this
      exact absurd this (by decide)) h
  exact natChars_inj this

theorem marker_no_inner_start {a b : Nat} {j : Nat} {t : List Char} (hj : 0 < j)
    (hjlt : j < (marker a).length)
    (h : pfx (marker b) (List.drop j (marker a ++ t)) = true) : False := by
  cases j with
  | zero => omega
  | succ j' =>
    rw [marker_eq_cons a, List.cons_append, List.drop_succ_cons] at h
    rw [marker_length] at hjlt
    have hjin : j' < (natChars a ++ [']']).length := by
      simp
      omega
    rw [drop_append_of_le t (natChars a ++ [']']) j' (by omega)] at h
    cases hdr : (natChars a ++ [']']).drop j' with
    | nil =>
      have := List.length_drop j' (natChars a ++ [']'])
      rw [hdr] at this
      simp at this
      omega
    | cons c cs =>
      rw [hdr, List.cons_append, marker_eq_cons b, pfx] at h
      split at h
      · rename_i hc
        have hcmem : c ∈ natChars a ++ [']'] :=
          List.drop_subset j' (natChars a ++ [']']) (hdr ▸ List.mem_cons_self c cs)
        exact absurd hc.symm (marker_inner_ne_lbrack hcmem)
      · exact absurd h (by simp)

theorem replAux_zero (pat rep s : List Char) : replAux pat rep 0 s = s := by
  cases s <;> rfl

theorem replAux_nil (pat rep : List Char) (f : Nat) : replAux pat rep f [] = [] := by
  cases f <;> rfl

theorem replAux_cons_pos (pat rep : List Char) (f : Nat) (c : Char) (rest : List Char)
    (h : pfx pat (c :: rest) = true) :
    replAux pat rep (f + 1) (c :: rest) =
      rep ++ replAux pat rep f (List.drop pat.length (c :: rest)) := by
  rw [replAux, if_pos h]

theorem replAux_cons_neg (pat rep : List Char) (f : Nat) (c : Char) (rest : List Char)
    (h : pfx pat (c :: rest) = false) :
    replAux pat rep (f + 1) (c :: rest) = c :: replAux pat rep f rest := by
  rw [replAux, if_neg (by simp [h])]

theorem replAux_skip (pat rep : List Char) :
    ∀ (m : Nat) (f : Nat) (s : List Char), (∀ j, j < m → pfx pat (List.drop j s) = false) →
      replAux pat rep f s = List.take m s ++ replAux pat rep (f - m) (List.drop m s) := by
  intro m
  induction m with
  | zero => intro f s _; simp
  | succ m' ih =>
    intro f s hno
    cases s with
    | nil => simp [replAux_nil]
    | cons c rest =>
      cases f with
      | zero =>
        rw [replAux_zero, Nat.zero_sub, replAux_zero, List.take_append_drop]
      | succ f' =>
        have h0 : pfx pat (c :: rest) = false := by simpa using hno 0 (by omega)
        rw [replAux_cons_neg pat rep f' c rest h0, List.take_succ_cons, List.drop_succ_cons,
          List.cons_append, show f' + 1 - (m' + 1) = f' - m' by omega,
          ih f' rest (fun j hj => by simpa using hno (j + 1) (by omega))]

theorem replAux_no_occ (pat rep : List Char) :
    ∀ (f : Nat) (s : List Char), containsSub pat s = false → replAux pat rep f s = s := by
  intro f
  induction f with
  | zero => intro s _; exact replAux_zero pat rep s
  | succ f' ih =>
    intro s hno
    cases s with
    | nil => exact replAux_nil pat rep (f' + 1)
    | cons c rest =>
      rw [containsSub, Bool.or_eq_false_iff] at hno
      rw [replAux_cons_neg pat rep f' c rest hno.1, ih rest hno.2]

theorem containsSub_nil_marker (k : Nat) : containsSub (marker k) [] = false := by
  rw [containsSub, marker_eq_cons, pfx]

theorem containsSub_append_left (p rep X : List Char) {i : Nat}
    (h : pfx p (List.drop i X) = true) : containsSub p (rep ++ X) = true :=
  (containsSub_iff p (rep ++ X)).2 ⟨rep.length + i, by rw [drop_append_right X rep i]; exact h⟩

theorem marker_preserved_step {k n : Nat} (hne : n ≠ k) (rep : List Char) :
    ∀ (f : Nat) (s : List Char), containsSub (marker k) s = true →
      containsSub (marker k) (replAux (marker n) rep f s) = true := by
  intro f
  induction f with
  | zero => intro s h; rw [replAux_zero]; exact h
  | succ f' ih =>
    intro s h
    cases s with
    | nil => rw [containsSub_nil_marker] at h; exact absurd h (by simp)
    | cons c rest =>
      obtain ⟨i, hi⟩ := (containsSub_iff (marker k) (c :: rest)).1 h
      cases hp : pfx (marker n) (c :: rest) with
      | true =>
        obtain ⟨t, ht⟩ := (pfx_iff (marker n) (c :: rest)).1 hp
        have hile : (marker n).length ≤ i := by
          by_contra hlt
          push_neg at hlt
          cases Nat.eq_zero_or_pos i with
          | inl hzero =>
            subst hzero
            rw [List.drop_zero] at hi
            rcases Nat.le_total (marker k).length (marker n).length with hlen | hlen
            · exact hne (marker_pfx_marker (pfx_of_pfx_of_length_le hi hp hlen)).symm
            · exact hne (marker_pfx_marker (pfx_of_pfx_of_length_le hp hi hlen))
          | inr hpos =>
            rw [ht] at hi
            exact marker_no_inner_start hpos hlt hi
        rw [replAux_cons_pos (marker n) rep f' c rest hp]
        have hdropc : List.drop (marker n).length (c :: rest) = t := by
          rw [ht, show (marker n).length = (marker n).length + 0 by omega,
            drop_append_right t (marker n) 0, List.drop_zero]
        have hocct : pfx (marker k) (List.drop (i - (marker n).length) t) = true := by
          have : List.drop i (c :: rest) = List.drop (i - (marker n).length) t := by
            rw [ht, show i = (marker n).length + (i - (marker n).length) by omega,
              drop_append_right t (marker n) (i - (marker n).length)]
            congr 1
            omega
          rw [this] at hi
          exact hi
        have hct : containsSub (marker k) t = true :=
          (containsSub_iff (marker k) t).2 ⟨i - (marker n).length, hocct⟩
        rw [hdropc]
        obtain ⟨i', hi'⟩ := (containsSub_iff (marker k) (replAux (marker n) rep f' t)).1
          (ih t hct)
        exact containsSub_append_left (marker k) rep _ hi'
      | false =>
        cases i with
        | zero =>
          rw [List.drop_zero] at hi
          obtain ⟨t, ht⟩ := (pfx_iff (marker k) (c :: rest)).1 hi
          have hnone : ∀ j, j < (marker k).length → pfx (marker n) (List.drop j (c :: rest)) = false := by
            intro j hj
            cases Nat.eq_zero_or_pos j with
            | inl hzero => subst hzero; rw [List.drop_zero]; exact hp
            | inr hpos =>
              cases hpj : pfx (marker n) (List.drop j (c :: rest)) with
              | false => rfl
              | true =>
                rw [ht] at hpj
                exact absurd (marker_no_inner_start hpos hj hpj) (by simp)
          rw [replAux_skip (marker n) rep (marker k).length (f' + 1) (c :: rest) hnone]
          rw [ht, List.take_left' rfl]
          exact (containsSub_iff (marker k) _).2 ⟨0, by rw [List.drop_zero]; exact pfx_self_append _ _⟩
        | succ j =>
          rw [List.drop_succ_cons] at hi
          have hcr : containsSub (marker k) rest = true :=
            (containsSub_iff (marker k) rest).2 ⟨j, hi⟩
          obtain ⟨i', hi'⟩ := (containsSub_iff (marker k) (replAux (marker n) rep f' rest)).1
            (ih rest hcr)
          rw [replAux_cons_neg (marker n) rep f' c rest hp]
          exact (containsSub_iff (marker k) _).2 ⟨i' + 1, by rw [List.drop_succ_cons]; exact hi'⟩

theorem marker_preserved_fold {k : Nat} (g : Source → List Char) :
    ∀ (srcs : List Source) (text : List Char), (∀ s ∈ srcs, s.number ≠ k) →
      containsSub (marker k) text = true →
      containsSub (marker k)
        (srcs.foldl (fun t s => replaceAll (marker s.number) (g s) t) text) = true := by
  intro srcs
  induction srcs with
  | nil => intro text _ h; exact h
  | cons s rest ih =>
    intro text hnum h
    rw [List.foldl_cons]
    exact ih _ (fun u hu => hnum u (by simp [hu]))
      (marker_preserved_step (hnum s (by simp)) (g s) text.length text h)

theorem no_marker_fold_id :
    ∀ (srcs : List Source) (text : List Char) (g : Source → List Char),
      (∀ s ∈ srcs, containsSub (marker s.number) text = false) →
      srcs.foldl (fun t s => replaceAll (marker s.number) (g s) t) text = text := by
  intro srcs
  induction srcs with
  | nil => intro text g _; rfl
  | cons s rest ih =>
    intro text g hno
    rw [List.foldl_cons]
    have hid : replaceAll (marker s.number) (g s) text = text :=
      replAux_no_occ (marker s.number) (g s) text.length text (hno s (by simp))
    rw [hid]
    exact ih text g (fun u hu => hno u (by simp [hu]))

theorem mkSourcesFrom_numbers :
    ∀ (l : List Passage) (i : Nat),
      (mkSourcesFrom i l).map Source.number = List.range' (i + 1) l.length := by
  intro l
  induction l with
  | nil => intro i; rfl
  | cons r rest ih =>
    intro i
    rw [mkSourcesFrom, List.map_cons, List.length_cons, List.range'_succ]
    exact congrArg (List.cons (i + 1)) (ih (i + 1))

/-- C1: the `sources` array built from any retrieval result list carries `number`
values that are exactly `1, 2, ..., min(length, 10)`: contiguous from 1, in
retrieval order, without gaps or repeats. -/
theorem c1_source_numbers_contiguous (results : List Passage) :
    (mkSources results).map Source.number = List.range' 1 (min results.length 10) ∧
      ((mkSources results).map Source.number).Nodup := by
  have h : (mkSources results).map Source.number = List.range' 1 (min results.length 10) := by
    rw [mkSources, mkSourcesFrom_numbers, List.length_take, Nat.min_comm]
  exact ⟨h, by rw [h]; exact (List.nodup_range' 1 (min results.length 10) :
    (List.range' 1 (min results.length 10)).Nodup)⟩

/-- C2: a citation marker `[k]` whose number `k` matches no source in the registry
is left in place by both rendering encodings: it still occurs literally in the
HTML-anchor output and in the markdown-link output (it is never removed, and
rendering is a total function, so it never fails). -/
theorem c2_unresolved_marker_untouched (answer : List Char) (sources : List Source) (k : Nat)
    (hk : ∀ s ∈ sources, s.number ≠ k)
    (hin : containsSub (marker k) answer = true) :
    containsSub (marker k) (createClickableCitations answer sources) = true ∧
      containsSub (marker k) (createMarkdownCitations answer sources) = true :=
  ⟨marker_preserved_fold clickableLink sources answer hk hin,
    marker_preserved_fold markdownLink sources answer hk hin⟩


theorem c2_witness :
    containsSub (marker 7) (createClickableCitations (str "See [7].") [sampleSource]) = true ∧
      containsSub (marker 7) (createMarkdownCitations (str "See [7].") [sampleSource]) = true :=
  c2_unresolved_marker_untouched (str "See [7].") [sampleSource] 7 (by decide) (by decide)

/-- C3 (amended): re-rendering is a no-op exactly on text in which no source's
`[n]` marker occurs any more; an HTML-rendered answer is not such a text (each
anchor keeps `[n]` as its link text), so a second HTML rendering is not a no-op
in general (see the counterexample). -/
theorem c3_render_noop_without_markers (text : List Char) (srcs : List Source)
    (h : ∀ s ∈ srcs, containsSub (marker s.number) text = false) :
    createClickableCitations text srcs = text :=
  no_marker_fold_id srcs text clickableLink h

theorem c3_witness : createClickableCitations (str "hello") [sampleSource] = str "hello" :=
  c3_render_noop_without_markers (str "hello") [sampleSource] (by decide)

set_option maxRecDepth 40000 in
theorem c3_counterexample :
    createClickableCitations (createClickableCitations (str "[1]") [sampleSource])
        [sampleSource] ≠
      createClickableCitations (str "[1]") [sampleSource] := by
  decide

theorem mem_mkSourcesFrom :
    ∀ (l : List Passage) (i : Nat) (s : Source), s ∈ mkSourcesFrom i l →
      ∃ j r, s = mkSource j r := by
  intro l
  induction l with
  | nil => intro i s hs; simp [mkSourcesFrom] at hs
  | cons r rest ih =>
    intro i s hs
    rw [mkSourcesFrom] at hs
    rcases List.mem_cons.1 hs with h | h
    · exact ⟨i, r, h⟩
    · exact ih (i + 1) s h

/-- C7 (amended): the excerpt is the passage text itself when that text has at
most 150 characters, and otherwise its first 150 characters followed by "...";
its length is therefore at most 153 (not 150: a truncated excerpt has exactly
153 characters), and the ellipsis is appended exactly when truncation occurs. -/
theorem c7_excerpt_truncation :
    (∀ text : List Char, (chunkPreview text).length ≤ 153 ∧
        chunkPreview text = if text.length ≤ 150 then text else text.take 150 ++ str "...") ∧
      ∀ (rs : List Passage) (s : Source), s ∈ mkSources rs → s.chunk_text.length ≤ 153 := by
  have hmain : ∀ text : List Char, (chunkPreview text).length ≤ 153 ∧
      chunkPreview text = if text.length ≤ 150 then text else text.take 150 ++ str "..." := by
    intro text
    rw [chunkPreview]
    by_cases h : 150 < text.length
    · rw [if_pos h, if_neg (by omega)]
      refine ⟨?_, rfl⟩
      rw [List.length_append, List.length_take, show (str "...").length = 3 from rfl]
      omega
    · rw [if_neg h, if_pos (by omega)]
      exact ⟨by omega, rfl⟩
  refine ⟨hmain, ?_⟩
  intro rs s hs
  obtain ⟨j, r, hjr⟩ := mem_mkSourcesFrom (rs.take 10) 0 s hs
  rw [hjr]
  exact (hmain (jsOr r.suggestedText (jsOr r.text []))).1



theorem c7_witness : (mkSource 0 samplePassage).chunk_text.length ≤ 153 :=
  c7_excerpt_truncation.2 [samplePassage] (mkSource 0 samplePassage) (by decide)

set_option maxRecDepth 40000 in
theorem c7_counterexample :
    (mkSources [longPassage]).map (fun s => s.chunk_text.length) = [153] ∧ ¬ (153 ≤ 150) := by
  constructor
  · decide
  · decide

theorem mkSource_title (i : Nat) (r : Passage) :
    (mkSource i r).title = specTitleChain r (i + 1) := by
  rcases r with ⟨st, tx, sdt, fn, su, mu, pn, pg, sc⟩
  cases sdt <;> cases fn <;>
    simp only [mkSource, specTitleChain, specTitleFallback, jsOr]

theorem mkSourcesFrom_titles :
    ∀ (l : List Passage) (i : Nat),
      (mkSourcesFrom i l).map Source.title = specTitlesFrom i l := by
  intro l
  induction l with
  | nil => intro i; rfl
  | cons r rest ih =>
    intro i
    rw [mkSourcesFrom, specTitlesFrom, List.map_cons, mkSource_title]
    exact congrArg (List.cons (specTitleChain r (i + 1))) (ih (i + 1))

/-- C8 (amended): for every passage, the derived title is the first available of
explicit title, then filename, then the synthesized `Source N` — the URL's last
path segment is never consulted by this handler (that step appears only in a
variant implementation outside the main pipeline; see the counterexample). -/
theorem c8_title_derivation (results : List Passage) :
    (mkSources results).map Source.title = specTitlesFrom 0 (results.take 10) := by
  rw [mkSources, mkSourcesFrom_titles]


theorem c8_counterexample :
    (mkSources [urlOnlyPassage]).map Source.title = [str "Source 1"] ∧
      str "Source 1" ≠ str "doc.pdf" := by
  constructor
  · decide
  · decide

theorem gxLoop_cons_ok (respond : Attempt → HttpResp) (t : Attempt) (rest : List Attempt)
    (lt : List Char) (h : (respond t).ok = true) :
    gxLoop respond (t :: rest) lt = (.success (respond t).body, [t]) := by
  simp [gxLoop, h]

theorem gxLoop_cons_auth (respond : Attempt → HttpResp) (t : Attempt) (rest : List Attempt)
    (lt : List Char) (h1 : (respond t).ok = false) (h2 : authSig (respond t).body = true) :
    gxLoop respond (t :: rest) lt =
      ((gxLoop respond rest (respond t).body).1,
        t :: (gxLoop respond rest (respond t).body).2) := by
  simp [gxLoop, h1, h2]

theorem gxLoop_cons_hard (respond : Attempt → HttpResp) (t : Attempt) (rest : List Attempt)
    (lt : List Char) (h1 : (respond t).ok = false) (h2 : authSig (respond t).body = false) :
    gxLoop respond (t :: rest) lt =
      (.hardFailure (str "GroundX search failed: " ++ (respond t).body), [t]) := by
  simp [gxLoop, h1, h2]

/-- C4: the retrieval fallback loop runs its attempt list strictly in order:
(1) it returns the body of the first successful attempt, executing no later
attempt; (2) failures whose body matches the auth signature fall through to the
next attempt; (3) a failure whose body does not match aborts immediately with
that error, executing nothing further; (4) if every attempt fails with an
auth-signature error the loop fails carrying the last attempt's raw error body. -/
theorem c4_retrieval_sequencing (respond : Attempt → HttpResp) :
    (∀ (pre : List Attempt) (t : Attempt) (post : List Attempt) (lt : List Char),
        (∀ a ∈ pre, (respond a).ok = false ∧ authSig (respond a).body = true) →
        (respond t).ok = true →
        gxLoop respond (pre ++ t :: post) lt = (.success (respond t).body, pre ++ [t])) ∧
      (∀ (pre : List Attempt) (t : Attempt) (post : List Attempt) (lt : List Char),
        (∀ a ∈ pre, (respond a).ok = false ∧ authSig (respond a).body = true) →
        (respond t).ok = false → authSig (respond t).body = false →
        gxLoop respond (pre ++ t :: post) lt =
          (.hardFailure (str "GroundX search failed: " ++ (respond t).body), pre ++ [t])) ∧
      (∀ (pre : List Attempt) (tl : Attempt) (lt : List Char),
        (∀ a ∈ pre ++ [tl], (respond a).ok = false ∧ authSig (respond a).body = true) →
        gxLoop respond (pre ++ [tl]) lt =
          (.authExhausted (str "GroundX auth failed after retries: " ++ (respond tl).body),
            pre ++ [tl])) := by
  refine ⟨?_, ?_, ?_⟩
  · intro pre
    induction pre with
    | nil =>
      intro t post lt _ hok
      rw [List.nil_append]
      exact gxLoop_cons_ok respond t post lt hok
    | cons a pre' ih =>
      intro t post lt hpre hok
      obtain ⟨ha1, ha2⟩ := hpre a (by simp)
      rw [List.cons_append, gxLoop_cons_auth respond a (pre' ++ t :: post) lt ha1 ha2,
        ih t post (respond a).body (fun u hu => hpre u (by simp [hu])) hok]
      rfl
  · intro pre
    induction pre with
    | nil =>
      intro t post lt _ hok hsig
      rw [List.nil_append]
      exact gxLoop_cons_hard respond t post lt hok hsig
    | cons a pre' ih =>
      intro t post lt hpre hok hsig
      obtain ⟨ha1, ha2⟩ := hpre a (by simp)
      rw [List.cons_append, gxLoop_cons_auth respond a (pre' ++ t :: post) lt ha1 ha2,
        ih t post (respond a).body (fun u hu => hpre u (by simp [hu])) hok hsig]
      rfl
  · intro pre
    induction pre with
    | nil =>
      intro tl lt hall
      obtain ⟨h1, h2⟩ := hall tl (by simp)
      rw [List.nil_append, gxLoop_cons_auth respond tl [] lt h1 h2]
      rfl
    | cons a pre' ih =>
      intro tl lt hall
      obtain ⟨ha1, ha2⟩ := hall a (by simp)
      rw [List.cons_append, gxLoop_cons_auth respond a (pre' ++ [tl]) lt ha1 ha2,
        ih tl (respond a).body (fun u hu => hall u (by simp [hu]))]








theorem c4_witness :
    gxLoop cRespond (gxTries cKey) (str "") =
      (.success (cRespond gxAttempt2).body, [gxAttempt1, gxAttempt2]) :=
  (c4_retrieval_sequencing cRespond).1 [gxAttempt1] gxAttempt2
    [gxAttempt3, gxAttempt4, gxAttempt5] (str "") (by decide) (by decide)

end Chesm

namespace Chesm





/-- C5: when retrieval succeeds but yields zero passages and an empty pre-assembled
context, the handler short-circuits: status 200, empty source list, both answer
fields are the fixed apology template containing the literal query, and the
generation backend is never called. -/
theorem c5_empty_evidence_short_circuit (env : Env) (up : Upstream) (qv : Option JVal)
    (query : List Char)
    (hq : trimJs (queryOrEmpty qv) = .ok query) (hqne : query ≠ [])
    (hk1 : truthyS env.gxKey = true) (hk2 : truthyS env.gxBucket = true)
    (hk3 : truthyS env.oaKey = true) (hgx : up.gx.ok = true)
    (htext : gxText up = []) (hres : gxResults up = []) :
    handler ⟨str "POST", some qv⟩ env up =
      ⟨200, .noEvidence (apology query) (apology query) [], true, false⟩ := by
  simp only [handler, hq, hk1, hk2, hk3, hgx, htext, hres]
  simp [hqne, str]

theorem c5_witness :
    handler ⟨str "POST", some (some (.jstr (str "hi")))⟩ cEnv cUpEmpty =
      ⟨200, .noEvidence (apology (str "hi")) (apology (str "hi")) [], true, false⟩ :=
  c5_empty_evidence_short_circuit cEnv cUpEmpty (some (.jstr (str "hi"))) (str "hi")
    rfl (by decide) (by decide) (by decide) (by decide) (by decide) (by decide) (by decide)

/-- C6: a POST request whose JSON body has no `query` field, or whose `query` is a
string that is empty after trimming, is rejected with status 400 and body
`error: Missing 'query' string`, and neither backend is called. -/
theorem c6_missing_query (env : Env) (up : Upstream) (qv : Option JVal)
    (hq : qv = none ∨ ∃ s, qv = some (.jstr s) ∧ jsTrim s = []) :
    handler ⟨str "POST", some qv⟩ env up =
      ⟨400, .error (str "Missing 'query' string"), false, false⟩ := by
  have htrim : trimJs (queryOrEmpty qv) = .ok [] := by
    rcases hq with h | ⟨s, hs, hst⟩
    · subst h; rfl
    · subst hs
      by_cases hse : s = []
      · subst hse; rfl
      · simp [queryOrEmpty, truthyJ, hse, trimJs, hst]
  simp only [handler, htrim]
  simp [str]

theorem c6_witness :
    handler ⟨str "POST", some none⟩ cEnv cUpEmpty =
      ⟨400, .error (str "Missing 'query' string"), false, false⟩ :=
  c6_missing_query cEnv cUpEmpty none (Or.inl rfl)

/-- C9: if the generation backend's HTTP response is not ok the handler fails
with status 502 carrying the upstream error body; if the response is ok but the
answer content is missing or whitespace-only, the handler substitutes the
literal "No answer." as the answer and still responds with status 200. -/
theorem c9_generation_outcomes (env : Env) (up : Upstream) (qv : Option JVal)
    (query : List Char)
    (hq : trimJs (queryOrEmpty qv) = .ok query) (hqne : query ≠ [])
    (hk1 : truthyS env.gxKey = true) (hk2 : truthyS env.gxBucket = true)
    (hk3 : truthyS env.oaKey = true) (hgx : up.gx.ok = true)
    (hev : ¬(gxText up = [] ∧ gxResults up = [])) :
    (up.oa.ok = false →
        handler ⟨str "POST", some qv⟩ env up =
          ⟨502, .error (str "OpenAI call failed: " ++ up.oa.body), true, true⟩) ∧
      (up.oa.ok = true →
        (up.oaContent = none ∨ ∃ c, up.oaContent = some c ∧ jsTrim c = []) →
        handler ⟨str "POST", some qv⟩ env up =
          ⟨200,
            .success (assembleMd (str "No answer.") (mkSources (gxResults up)))
              (assembleHtml (str "No answer.") (mkSources (gxResults up)))
              (assembleLinks (str "No answer.") (mkSources (gxResults up)))
              (mkSources (gxResults up)),
            true, true⟩) := by
  constructor
  · intro hoa
    simp only [handler, hq, hk1, hk2, hk3, hgx, hoa]
    simp [hqne, str, hev]
  · intro hoa hcontent
    have hans : jsOr (up.oaContent.map jsTrim) (str "No answer.") = str "No answer." := by
      rcases hcontent with h | ⟨c, hc, hct⟩
      · rw [h]; rfl
      · rw [hc]; simp [jsOr, hct]
    simp only [handler, hq, hk1, hk2, hk3, hgx, hoa, hans]
    simp [hqne, str, hev]

theorem c9_witness :
    handler ⟨str "POST", some (some (.jstr (str "hi")))⟩ cEnv cUpCtxFail =
      ⟨502, .error (str "OpenAI call failed: " ++ str "boom"), true, true⟩ ∧
      handler ⟨str "POST", some (some (.jstr (str "hi")))⟩ cEnv cUpCtxOk =
        ⟨200,
          .success (assembleMd (str "No answer.") (mkSources (gxResults cUpCtxOk)))
            (assembleHtml (str "No answer.") (mkSources (gxResults cUpCtxOk)))
            (assembleLinks (str "No answer.") (mkSources (gxResults cUpCtxOk)))
            (mkSources (gxResults cUpCtxOk)),
          true, true⟩ :=
  ⟨(c9_generation_outcomes cEnv cUpCtxFail (some (.jstr (str "hi"))) (str "hi")
      rfl (by decide) (by decide) (by decide) (by decide) (by decide) (by decide)).1 rfl,
    (c9_generation_outcomes cEnv cUpCtxOk (some (.jstr (str "hi"))) (str "hi")
      rfl (by decide) (by decide) (by decide) (by decide) (by decide) (by decide)).2 rfl
      (Or.inl rfl)⟩

/-- C10: a present, truthy, non-string `query` value takes the generic
server-error path: trimming throws, the top-level catch answers with status 500
(not the 400 validation error), and no outbound call is made. -/
theorem c10_nonstring_query_server_error (env : Env) (up : Upstream) (v : JVal)
    (htr : truthyJ v = true) (hns : ∀ s, v ≠ .jstr s) :
    handler ⟨str "POST", some (some v)⟩ env up =
      ⟨500, .error (str "query.trim is not a function"), false, false⟩ ∧
      (handler ⟨str "POST", some (some v)⟩ env up).status ≠ 400 := by
  have htrim : trimJs (queryOrEmpty (some v)) = .error (str "query.trim is not a function") := by
    have hqv : queryOrEmpty (some v) = v := by simp [queryOrEmpty, htr]
    rw [hqv]
    cases v with
    | jstr s => exact absurd rfl (hns s)
    | jnum n => rfl
    | jbool b => rfl
    | jnull => rfl
  have hmain : handler ⟨str "POST", some (some v)⟩ env up =
      ⟨500, .error (str "query.trim is not a function"), false, false⟩ := by
    simp only [handler, htrim]
    simp [str]
  exact ⟨hmain, by rw [hmain]; decide⟩

theorem c10_witness :
    handler ⟨str "POST", some (some (.jnum 42))⟩ cEnv cUpEmpty =
      ⟨500, .error (str "query.trim is not a function"), false, false⟩ ∧
      (handler ⟨str "POST", some (some (.jnum 42))⟩ cEnv cUpEmpty).status ≠ 400 :=
  c10_nonstring_query_server_error cEnv cUpEmpty (.jnum 42) (by decide)
    (fun s h => JVal.noConfusion h)

end Chesm
